import Mathlib

/-!
Verification of the coding-gym repository: a Redis-backed token-bucket /
sliding-window rate limiter and a transactional outbox relay toward Kafka.

The definitions below are shallow embeddings of the repository's code:

* the three Lua scripts of the bucket engine
  (redis-token-bucket/internal/bucket, `takeTokensScript`,
  `getBucketStateScript`, `resetBucketScript`) modelled over `ℚ` with the
  Redis hash as an `Option BucketRec` and the key's expiry tracked
  explicitly (`none` = no TTL set, mirroring what the `TTL` command reports);
* the sliding-window Lua script (`slidingWindowScript`) over a list of
  millisecond timestamps standing for the sorted set;
* the outbox repository operations (outbox-kafka/internal/database,
  `MarkEventAsProcessing`, `MarkEventAsSent`, `MarkEventAsFailed`,
  `ResetStaleProcessingEvents`) and the relay's per-event control flow
  (monolith internal/relay, `Relay.processEvent`), with the publisher
  outcome abstracted to a boolean;
* the Kafka producer's message construction (`Producer.PublishEvent`) and
  the CRC32-based partition strategy
  (monolith/internal/kafka/partition.go, `HashPartitionStrategy.GetPartition`),
  including a bit-level embedding of `crc32.ChecksumIEEE` and of Go's
  `int32` conversion and truncated `%`.
-/

namespace CodingGym

/-! ### Bucket engine state

One Redis hash per key: fields tokens, last_refill, capacity, refill_rate,
plus the key's expiry as the `TTL` command would report it
(`none` = key persists with no TTL). -/

/-- A bucket record stored in Redis (fields written by HMSET in the Lua
scripts), together with the key's expiry state. -/
structure BucketRec where
  tokens : ℚ
  lastRefill : ℚ
  capacity : ℚ
  refillRate : ℚ
  expiry : Option ℚ
  deriving Repr, DecidableEq

/-- Result triple returned by the take-tokens script:
`{allowed, new_tokens, retry_after}`. -/
structure TakeResult where
  allowed : Bool
  remaining : ℚ
  retryAfter : ℚ
  deriving Repr, DecidableEq

/-- `tonumber(bucket_data[1]) or capacity`: the stored token count with the
capacity as default when the key is absent. -/
def storedTokens (capacity : ℚ) : Option BucketRec → ℚ
  | some b => b.tokens
  | none => capacity

/-- `tonumber(bucket_data[2]) or current_time`: the stored last-refill time
with the current store clock as default when the key is absent. -/
def storedLastRefill (currentTime : ℚ) : Option BucketRec → ℚ
  | some b => b.lastRefill
  | none => currentTime

/-- `time_elapsed * refill_rate` with
`time_elapsed = math.max(0, current_time - last_refill)`. -/
def tokensToAdd (refillRate currentTime : ℚ) (store : Option BucketRec) : ℚ :=
  max 0 (currentTime - storedLastRefill currentTime store) * refillRate

/-- Embedding of `takeTokensScript` (the atomic Lua script behind
`RedisTokenBucket.TakeTokens`): lazy refill clamped to capacity, conditional
consumption, unconditional write-back of
(tokens, last_refill = now, capacity, refill_rate) and EXPIRE ttl.
Returns the result triple and the record written back. -/
def takeTokensScript (requestedTokens capacity refillRate ttl currentTime : ℚ)
    (store : Option BucketRec) : TakeResult × BucketRec :=
  let currentTokens := storedTokens capacity store
  let newTokens := min capacity (currentTokens + tokensToAdd refillRate currentTime store)
  if requestedTokens ≤ newTokens then
    ({ allowed := true, remaining := newTokens - requestedTokens, retryAfter := 0 },
     { tokens := newTokens - requestedTokens, lastRefill := currentTime,
       capacity := capacity, refillRate := refillRate, expiry := some ttl })
  else
    ({ allowed := false, remaining := newTokens,
       retryAfter := (requestedTokens - newTokens) / refillRate },
     { tokens := newTokens, lastRefill := currentTime,
       capacity := capacity, refillRate := refillRate, expiry := some ttl })

/-- The transition described by the specification of take(key, n), written
from the spec's words: read (tokens, last-refill) with (capacity, now) as
defaults, elapsed = max(0, now − last-refill), pool = elapsed × refill-rate
added and clamped to capacity; if pool ≥ n subtract n, allowed, retry-after 0;
else denied with remaining = pool and retry-after = (n − pool)/refill-rate;
always write back (tokens, last-refill = now, capacity, refill-rate) and set
the TTL. -/
def takeSpecModel (n capacity refillRate ttl now : ℚ)
    (store : Option BucketRec) : TakeResult × BucketRec :=
  let readTokens := match store with | some b => b.tokens | none => capacity
  let readLastRefill := match store with | some b => b.lastRefill | none => now
  let elapsed := max 0 (now - readLastRefill)
  let pool := min capacity (readTokens + elapsed * refillRate)
  if n ≤ pool then
    ({ allowed := true, remaining := pool - n, retryAfter := 0 },
     { tokens := pool - n, lastRefill := now,
       capacity := capacity, refillRate := refillRate, expiry := some ttl })
  else
    ({ allowed := false, remaining := pool, retryAfter := (n - pool) / refillRate },
     { tokens := pool, lastRefill := now,
       capacity := capacity, refillRate := refillRate, expiry := some ttl })

/-- Claim C1: for every key state and every n > 0, take performs exactly the
transition the specification describes: same defaults on a missing record,
same clamped lazy refill, same allow/deny outcome with retry-after
(n − pool)/refill-rate on denial, and in both branches the same write-back of
(tokens, last-refill = now, capacity, refill-rate) with the TTL set. -/
theorem takeTokens_matches_spec (n capacity refillRate ttl now : ℚ)
    (store : Option BucketRec) (hn : 0 < n) :
    takeTokensScript n capacity refillRate ttl now store =
      takeSpecModel n capacity refillRate ttl now store := by
  cases store <;> rfl

/-- Witness for C1 at a concrete input: n = 3 on a fresh (absent) bucket of
capacity 10. -/
theorem takeTokens_matches_spec_witness :
    (0 : ℚ) < 3 ∧
      takeTokensScript 3 10 1 300 100 none = takeSpecModel 3 10 1 300 100 none :=
  ⟨by norm_num, takeTokens_matches_spec 3 10 1 300 100 none (by norm_num)⟩

/-- Result triple returned by the get-state script:
`{new_tokens, current_time, bucket_ttl}`. -/
structure GetStateResult where
  tokens : ℚ
  time : ℚ
  ttlSeconds : ℚ
  deriving Repr, DecidableEq

/-- Embedding of `getBucketStateScript` (behind
`RedisTokenBucket.GetBucketState`): performs the same lazy refill
computation as take, writes the record back (HMSET + EXPIRE) only when
`tokens_to_add > 0`, then reads the key's TTL and re-arms it only when that
read reports -1 (key present with no expiry; a missing key reports -2).
Returns the result triple, the resulting store, and whether EXPIRE ran. -/
def getBucketStateScript (capacity refillRate ttl currentTime : ℚ)
    (store : Option BucketRec) : GetStateResult × Option BucketRec × Bool :=
  let currentTokens := storedTokens capacity store
  let newTokens := min capacity (currentTokens + tokensToAdd refillRate currentTime store)
  let store1 : Option BucketRec :=
    if 0 < tokensToAdd refillRate currentTime store then
      some { tokens := newTokens, lastRefill := currentTime,
             capacity := capacity, refillRate := refillRate, expiry := some ttl }
    else store
  let bucketTtl : ℚ :=
    match store1 with
    | none => -2
    | some b => match b.expiry with | none => -1 | some q => q
  let store2 : Option BucketRec :=
    if bucketTtl = -1 then
      match store1 with | none => none | some b => some { b with expiry := some ttl }
    else store1
  let expired : Bool :=
    if bucketTtl = -1 then true else decide (0 < tokensToAdd refillRate currentTime store)
  let ttlOut : ℚ := if bucketTtl = -1 then ttl else bucketTtl
  ({ tokens := newTokens, time := currentTime, ttlSeconds := ttlOut }, store2, expired)

/-- Embedding of `resetBucketScript` (behind `RedisTokenBucket.ResetBucket`):
unconditionally writes tokens = capacity, last_refill = now, capacity,
refill_rate, and sets the TTL. Returns `{capacity, current_time}` and the
record written. -/
def resetBucketScript (capacity refillRate ttl currentTime : ℚ)
    (_store : Option BucketRec) : (ℚ × ℚ) × BucketRec :=
  ((capacity, currentTime),
   { tokens := capacity, lastRefill := currentTime,
     capacity := capacity, refillRate := refillRate, expiry := some ttl })

/-- The three atomic operations the bucket engine exposes against one key. -/
inductive BucketOp where
  | takeOp (n : ℚ)
  | getStateOp
  | resetOp
  deriving Repr, DecidableEq

/-- The store record for a key after one engine operation executed at store
clock `now` with the engine's configured (capacity, refill rate, ttl). -/
def bucketApply (capacity refillRate ttl now : ℚ) (op : BucketOp)
    (store : Option BucketRec) : Option BucketRec :=
  match op with
  | .takeOp n => some (takeTokensScript n capacity refillRate ttl now store).2
  | .getStateOp => (getBucketStateScript capacity refillRate ttl now store).2.1
  | .resetOp => some (resetBucketScript capacity refillRate ttl now store).2

/-- Data invariant of a key's bucket record at store clock `t`: tokens lie in
[0, capacity] and the last-refill stamp is not in the future. -/
def BucketInv (capacity t : ℚ) : Option BucketRec → Prop
  | none => True
  | some b => 0 ≤ b.tokens ∧ b.tokens ≤ capacity ∧ b.lastRefill ≤ t

/-- The record the take script writes back, in closed form. -/
theorem takeTokensScript_rec (n capacity refillRate ttl now : ℚ) (store : Option BucketRec) :
    (takeTokensScript n capacity refillRate ttl now store).2 =
      { tokens :=
          if n ≤ min capacity (storedTokens capacity store + tokensToAdd refillRate now store) then
            min capacity (storedTokens capacity store + tokensToAdd refillRate now store) - n
          else min capacity (storedTokens capacity store + tokensToAdd refillRate now store),
        lastRefill := now, capacity := capacity, refillRate := refillRate,
        expiry := some ttl } := by
  by_cases h : n ≤ min capacity (storedTokens capacity store + tokensToAdd refillRate now store) <;>
    simp [takeTokensScript, h]

/-- The store left behind by the get-state script, in closed form: a fresh
write when tokens were added, otherwise the old record with at most its
expiry re-armed (when the TTL read reported -1). -/
theorem getBucketStateScript_store (capacity refillRate ttl now : ℚ)
    (store : Option BucketRec) :
    (getBucketStateScript capacity refillRate ttl now store).2.1 =
      if 0 < tokensToAdd refillRate now store then
        some { tokens := min capacity (storedTokens capacity store + tokensToAdd refillRate now store),
               lastRefill := now, capacity := capacity, refillRate := refillRate,
               expiry := some ttl }
      else
        match store with
        | none => none
        | some b =>
          if b.expiry = none ∨ b.expiry = some (-1) then some { b with expiry := some ttl }
          else some b := by
  by_cases hpos : 0 < tokensToAdd refillRate now store
  · simp only [getBucketStateScript, if_pos hpos]
    split <;> rfl
  · cases store with
    | none => norm_num [getBucketStateScript, hpos]
    | some b =>
      cases hexp : b.expiry with
      | none => simp [getBucketStateScript, hpos, hexp]
      | some q =>
        by_cases hq : q = (-1 : ℚ)
        · subst hq
          simp [getBucketStateScript, hpos, hexp]
        · simp [getBucketStateScript, hpos, hexp, hq]

/-- Whether the get-state script called EXPIRE, in closed form: it did when
the refill added tokens, or when the record exists with no TTL (or,
degenerately, a stored TTL reading of -1). -/
theorem getBucketStateScript_expireFlag (capacity refillRate ttl now : ℚ)
    (store : Option BucketRec) :
    (getBucketStateScript capacity refillRate ttl now store).2.2 =
      if 0 < tokensToAdd refillRate now store then true
      else
        match store with
        | none => false
        | some b =>
          match b.expiry with | none => true | some q => decide (q = (-1 : ℚ)) := by
  by_cases hpos : 0 < tokensToAdd refillRate now store
  · simp only [getBucketStateScript, if_pos hpos]
    split <;> simp [hpos]
  · cases store with
    | none => norm_num [getBucketStateScript, hpos]
    | some b =>
      cases hexp : b.expiry with
      | none => simp [getBucketStateScript, hpos, hexp]
      | some q =>
        by_cases hq : q = (-1 : ℚ)
        · subst hq
          simp [getBucketStateScript, hpos, hexp]
        · simp [getBucketStateScript, hpos, hexp, hq]

/-- Claim C6: every bucket-engine operation (take with n > 0, get-state,
reset), run at a store clock `now` at or after the clock `t` of the previous
operation, keeps the stored token count inside [0, capacity] and never
decreases the stored last-refill stamp. -/
theorem bucket_engine_invariant (op : BucketOp) (capacity refillRate ttl t now : ℚ)
    (store : Option BucketRec)
    (hcap : 0 ≤ capacity) (hrate : 0 ≤ refillRate)
    (hn : ∀ n, op = BucketOp.takeOp n → 0 < n)
    (ht : t ≤ now) (hinv : BucketInv capacity t store) :
    BucketInv capacity now (bucketApply capacity refillRate ttl now op store) ∧
      ∀ b b2, store = some b →
        bucketApply capacity refillRate ttl now op store = some b2 →
        b.lastRefill ≤ b2.lastRefill := by
  have hadd : 0 ≤ tokensToAdd refillRate now store :=
    mul_nonneg (le_max_left 0 _) hrate
  have hst : 0 ≤ storedTokens capacity store := by
    cases store with
    | none => simpa [storedTokens] using hcap
    | some b => exact hinv.1
  have hpool0 : (0 : ℚ) ≤ min capacity (storedTokens capacity store + tokensToAdd refillRate now store) :=
    le_min hcap (by linarith)
  have hpool1 : min capacity (storedTokens capacity store + tokensToAdd refillRate now store) ≤ capacity :=
    min_le_left _ _
  cases op with
  | takeOp n =>
    have hn0 : 0 < n := hn n rfl
    constructor
    · simp only [bucketApply, takeTokensScript_rec]
      refine ⟨?_, ?_, ?_⟩
      · dsimp only
        split <;> linarith
      · dsimp only
        split <;> linarith
      · exact le_refl now
    · intro b b2 hb hb2
      cases hb
      simp only [bucketApply, takeTokensScript_rec] at hb2
      cases hb2
      exact le_trans hinv.2.2 ht
  | getStateOp =>
    constructor
    · simp only [bucketApply, getBucketStateScript_store]
      by_cases hpos : 0 < tokensToAdd refillRate now store
      · simp only [if_pos hpos]
        exact ⟨hpool0, hpool1, le_refl now⟩
      · simp only [if_neg hpos]
        cases store with
        | none => trivial
        | some b =>
          obtain ⟨h1, h2, h3⟩ := hinv
          dsimp only
          split <;> exact ⟨h1, h2, le_trans h3 ht⟩
    · intro b b2 hb hb2
      cases hb
      simp only [bucketApply, getBucketStateScript_store] at hb2
      by_cases hpos : 0 < tokensToAdd refillRate now (some b)
      · simp only [if_pos hpos] at hb2
        cases hb2
        exact le_trans hinv.2.2 ht
      · simp only [if_neg hpos] at hb2
        split at hb2 <;> · cases hb2; exact le_refl _
  | resetOp =>
    constructor
    · exact ⟨hcap, le_refl capacity, le_refl now⟩
    · intro b b2 hb hb2
      cases hb
      cases hb2
      exact le_trans hinv.2.2 ht

/-- Witness for C6 at a concrete input: a take of 2 tokens at store clock 100
on a record holding 5 tokens last refilled at clock 0, capacity 10. -/
theorem bucket_engine_invariant_witness :
    (0 : ℚ) ≤ 10 ∧ (0 : ℚ) < 2 ∧
      BucketInv 10 100 (bucketApply 10 1 300 100 (BucketOp.takeOp 2)
        (some { tokens := 5, lastRefill := 0, capacity := 10, refillRate := 1,
                expiry := some 300 })) :=
  ⟨by norm_num, by norm_num,
    (bucket_engine_invariant (BucketOp.takeOp 2) 10 1 300 0 100
      (some { tokens := 5, lastRefill := 0, capacity := 10, refillRate := 1,
              expiry := some 300 })
      (by norm_num) (by norm_num)
      (by intro n h; injection h with h2; rw [← h2]; norm_num)
      (by norm_num) (by exact ⟨by norm_num, by norm_num, by norm_num⟩)).1⟩

/-- The result tokens reported by the get-state script equal the lazily
refilled pool. -/
theorem getBucketStateScript_tokens (capacity refillRate ttl now : ℚ)
    (store : Option BucketRec) :
    (getBucketStateScript capacity refillRate ttl now store).1.tokens =
      min capacity (storedTokens capacity store + tokensToAdd refillRate now store) :=
  rfl

/-- Counterexample to claim C7: a key whose record was refilled at this very
store-clock instant (elapsed = 0, so no tokens are added) and which already
carries a TTL (120 s remaining here) is read back by get-state without any
EXPIRE call: the TTL is not re-armed and the record is left untouched. -/
theorem getState_ttl_not_rearmed :
    (getBucketStateScript 10 1 300 10
        (some { tokens := 5, lastRefill := 10, capacity := 10, refillRate := 1,
                expiry := some 120 })).2.2 = false ∧
      (getBucketStateScript 10 1 300 10
        (some { tokens := 5, lastRefill := 10, capacity := 10, refillRate := 1,
                expiry := some 120 })).2.1 =
        some { tokens := 5, lastRefill := 10, capacity := 10, refillRate := 1,
               expiry := some 120 } := by
  have hpos : ¬(0 : ℚ) < tokensToAdd 1 10
      (some { tokens := 5, lastRefill := 10, capacity := 10, refillRate := 1,
              expiry := some 120 }) := by
    norm_num [tokensToAdd, storedLastRefill]
  constructor
  · rw [getBucketStateScript_expireFlag]
    norm_num [hpos]
  · have h120 : ¬((120 : ℚ) = -1) := by norm_num
    rw [getBucketStateScript_store]
    simp [hpos, h120]

/-- Claim C7 as amended: get-state performs the lazy refill — its reported
token count is exactly the pool the take script would observe at the same
instant (take with n ≤ that count allows and leaves count − n; take with
n > that count denies and leaves the count unchanged) — and it re-arms the
record's TTL exactly when the refill added tokens or the record exists
without any TTL; a record with a (non-negative) TTL that gains no tokens
keeps its running TTL. -/
theorem getState_refill_and_ttl (capacity refillRate ttl now n : ℚ)
    (store : Option BucketRec)
    (hexp : ∀ b q, store = some b → b.expiry = some q → 0 ≤ q) :
    (n ≤ (getBucketStateScript capacity refillRate ttl now store).1.tokens →
        (takeTokensScript n capacity refillRate ttl now store).1.allowed = true ∧
          (takeTokensScript n capacity refillRate ttl now store).1.remaining =
            (getBucketStateScript capacity refillRate ttl now store).1.tokens - n) ∧
      ((getBucketStateScript capacity refillRate ttl now store).1.tokens < n →
        (takeTokensScript n capacity refillRate ttl now store).1.allowed = false ∧
          (takeTokensScript n capacity refillRate ttl now store).1.remaining =
            (getBucketStateScript capacity refillRate ttl now store).1.tokens) ∧
      ((getBucketStateScript capacity refillRate ttl now store).2.2 = true ↔
        0 < tokensToAdd refillRate now store ∨
          ∃ b, store = some b ∧ b.expiry = none) := by
  have hg := getBucketStateScript_tokens capacity refillRate ttl now store
  refine ⟨?_, ?_, ?_⟩
  · intro h
    rw [hg] at h
    refine ⟨?_, ?_⟩
    · simp only [takeTokensScript, if_pos h]
    · rw [hg]
      simp only [takeTokensScript, if_pos h]
  · intro h
    rw [hg] at h
    have hcond := not_le.mpr h
    refine ⟨?_, ?_⟩
    · simp only [takeTokensScript, if_neg hcond]
    · rw [hg]
      simp only [takeTokensScript, if_neg hcond]
  · rw [getBucketStateScript_expireFlag]
    by_cases hpos : 0 < tokensToAdd refillRate now store
    · simp [hpos]
    · cases store with
      | none => simp [hpos]
      | some b =>
        cases hexpb : b.expiry with
        | none => simp [hpos, hexpb]
        | some q =>
          have hq : 0 ≤ q := hexp b q rfl hexpb
          have hqne : ¬(q = (-1 : ℚ)) := by
            intro hq2
            rw [hq2] at hq
            linarith
          simp [hpos, hexpb, hqne]

/-- Witness for the amended C7 at a concrete input: a bucket of capacity 10
holding 0 tokens last refilled at clock 0, read at clock 4 with refill rate
1: get-state reports 4 tokens, and a take of 3 at the same instant is
allowed with 4 − 3 tokens left. -/
theorem getState_refill_and_ttl_witness :
    (takeTokensScript 3 10 1 300 4
        (some { tokens := 0, lastRefill := 0, capacity := 10, refillRate := 1,
                expiry := some 100 })).1.allowed = true ∧
      (takeTokensScript 3 10 1 300 4
        (some { tokens := 0, lastRefill := 0, capacity := 10, refillRate := 1,
                expiry := some 100 })).1.remaining =
        (getBucketStateScript 10 1 300 4
          (some { tokens := 0, lastRefill := 0, capacity := 10, refillRate := 1,
                  expiry := some 100 })).1.tokens - 3 :=
  (getState_refill_and_ttl 10 1 300 4 3
      (some { tokens := 0, lastRefill := 0, capacity := 10, refillRate := 1,
              expiry := some 100 })
      (by
        intro b q hb hq
        cases hb
        injection hq with h2
        rw [← h2]
        norm_num)).1
    (by
      rw [getBucketStateScript_tokens]
      norm_num [storedTokens, tokensToAdd, storedLastRefill, min_def, max_def])

/-! ### Outbox relay

One row of the outbox_events table, the repository's row-level update
operations, the recovery pass, and the relay's per-event control flow with
the Kafka publish outcome abstracted to a boolean. Timestamps are integers
(e.g. unix seconds). -/

/-- The status enum of outbox_events (check constraint in the migration). -/
inductive OutboxStatus where
  | new
  | processing
  | sent
  | failed
  deriving Repr, DecidableEq

/-- One outbox_events row (models.OutboxEvent), payload bytes as a list. -/
structure OutboxEvent where
  id : String
  aggregateType : String
  aggregateID : String
  eventType : String
  eventData : List Nat
  status : OutboxStatus
  topic : String
  partitionKey : Option String
  createdAt : Int
  processedAt : Option Int
  retryCount : Int
  maxRetries : Int
  errorMessage : Option String
  deriving Repr, DecidableEq

/-- Repository.MarkEventAsProcessing: conditional UPDATE to PROCESSING with
processed_at = now, guarded by WHERE status = NEW; the boolean reports
whether a row was affected (the claim succeeded). -/
def MarkEventAsProcessing (t : Int) (r : OutboxEvent) : OutboxEvent × Bool :=
  if r.status = OutboxStatus.new then
    ({ r with status := OutboxStatus.processing, processedAt := some t }, true)
  else (r, false)

/-- Repository.MarkEventAsSent: UPDATE to SENT with processed_at = now,
with no status guard (WHERE id only). -/
def MarkEventAsSent (t : Int) (r : OutboxEvent) : OutboxEvent :=
  { r with status := OutboxStatus.sent, processedAt := some t }

/-- Repository.MarkEventAsFailed: UPDATE to FAILED, retry_count + 1, the
error message stored, processed_at = now, with no status guard. -/
def MarkEventAsFailed (msg : String) (t : Int) (r : OutboxEvent) : OutboxEvent :=
  { r with status := OutboxStatus.failed, retryCount := r.retryCount + 1,
           errorMessage := some msg, processedAt := some t }

/-- The WHERE predicate of Repository.ResetStaleProcessingEvents:
status = PROCESSING and processed_at < now − timeout (a NULL processed_at
never compares). -/
def staleProcessing (timeout now : Int) (r : OutboxEvent) : Bool :=
  decide (r.status = OutboxStatus.processing) &&
    match r.processedAt with
    | some p => decide (p < now - timeout)
    | none => false

/-- The per-row effect of Repository.ResetStaleProcessingEvents: stale
PROCESSING rows go back to NEW with processed_at cleared, all other rows are
untouched. -/
def resetStaleRow (timeout now : Int) (r : OutboxEvent) : OutboxEvent :=
  if staleProcessing timeout now r then
    { r with status := OutboxStatus.new, processedAt := none }
  else r

/-- Repository.ResetStaleProcessingEvents over the whole table. -/
def ResetStaleProcessingEvents (timeout now : Int) (rows : List OutboxEvent) :
    List OutboxEvent :=
  rows.map (resetStaleRow timeout now)

/-- Claim C5: one run of the recovery pass transitions exactly the
PROCESSING rows whose processed-at is older than the timeout back to NEW
with processed-at cleared; a PROCESSING row at or younger than the cutoff,
and any row in another status, is left exactly as it was. -/
theorem recovery_resets_exactly_stale (timeout now : Int) (rows : List OutboxEvent)
    (r : OutboxEvent) :
    ResetStaleProcessingEvents timeout now rows = rows.map (resetStaleRow timeout now) ∧
      (r.status = OutboxStatus.processing → ∀ p, r.processedAt = some p →
        ((p < now - timeout →
            resetStaleRow timeout now r =
              { r with status := OutboxStatus.new, processedAt := none }) ∧
          (now - timeout ≤ p → resetStaleRow timeout now r = r))) ∧
      (r.status ≠ OutboxStatus.processing → resetStaleRow timeout now r = r) := by
  refine ⟨rfl, ?_, ?_⟩
  · intro hs p hp
    constructor
    · intro hold
      have hstale : staleProcessing timeout now r = true := by
        simp [staleProcessing, hs, hp, hold]
      simp [resetStaleRow, hstale]
    · intro hyoung
      have hstale : staleProcessing timeout now r = false := by
        simp [staleProcessing, hs, hp]
        linarith
      simp [resetStaleRow, hstale]
  · intro hs
    have hstale : staleProcessing timeout now r = false := by
      simp [staleProcessing, hs]
    simp [resetStaleRow, hstale]

/-- Witness for C5 at concrete inputs: with timeout 300 at clock 1000, a
PROCESSING row claimed at 600 (older than the cutoff 700) is revived to NEW
with processed-at cleared. -/
theorem recovery_resets_exactly_stale_witness :
    resetStaleRow 300 1000
        { id := "e1", aggregateType := "user", aggregateID := "u1",
          eventType := "user.created", eventData := [], status := OutboxStatus.processing,
          topic := "user-events", partitionKey := some "u1", createdAt := 0,
          processedAt := some 600, retryCount := 0, maxRetries := 3,
          errorMessage := none } =
      { id := "e1", aggregateType := "user", aggregateID := "u1",
        eventType := "user.created", eventData := [], status := OutboxStatus.new,
        topic := "user-events", partitionKey := some "u1", createdAt := 0,
        processedAt := none, retryCount := 0, maxRetries := 3,
        errorMessage := none } :=
  ((recovery_resets_exactly_stale 300 1000 []
      { id := "e1", aggregateType := "user", aggregateID := "u1",
        eventType := "user.created", eventData := [], status := OutboxStatus.processing,
        topic := "user-events", partitionKey := some "u1", createdAt := 0,
        processedAt := some 600, retryCount := 0, maxRetries := 3,
        errorMessage := none }).2.1 rfl 600 rfl).1 (by decide)

/-- Claim C10: the recovery pass is a pure status/processed-at transition:
every other column of a revived row — identifiers, payload, retry
bookkeeping, last error, partition key, timestamps — is unchanged, and a row
whose status is not PROCESSING is not modified at all. -/
theorem recovery_frame (timeout now : Int) (r : OutboxEvent) :
    ((resetStaleRow timeout now r).id = r.id ∧
      (resetStaleRow timeout now r).aggregateType = r.aggregateType ∧
      (resetStaleRow timeout now r).aggregateID = r.aggregateID ∧
      (resetStaleRow timeout now r).eventType = r.eventType ∧
      (resetStaleRow timeout now r).eventData = r.eventData ∧
      (resetStaleRow timeout now r).topic = r.topic ∧
      (resetStaleRow timeout now r).partitionKey = r.partitionKey ∧
      (resetStaleRow timeout now r).createdAt = r.createdAt ∧
      (resetStaleRow timeout now r).retryCount = r.retryCount ∧
      (resetStaleRow timeout now r).maxRetries = r.maxRetries ∧
      (resetStaleRow timeout now r).errorMessage = r.errorMessage) ∧
      (r.status ≠ OutboxStatus.processing → resetStaleRow timeout now r = r) := by
  constructor
  · unfold resetStaleRow
    split <;> simp
  · intro hs
    have hstale : staleProcessing timeout now r = false := by
      simp [staleProcessing, hs]
    simp [resetStaleRow, hstale]

/-- Witness for C10 at a concrete input: a SENT row is untouched by a
recovery pass. -/
theorem recovery_frame_witness :
    resetStaleRow 300 1000
        { id := "e2", aggregateType := "user", aggregateID := "u2",
          eventType := "user.updated", eventData := [1, 2], status := OutboxStatus.sent,
          topic := "user-events", partitionKey := none, createdAt := 0,
          processedAt := some 600, retryCount := 1, maxRetries := 3,
          errorMessage := some "tmp" } =
      { id := "e2", aggregateType := "user", aggregateID := "u2",
        eventType := "user.updated", eventData := [1, 2], status := OutboxStatus.sent,
        topic := "user-events", partitionKey := none, createdAt := 0,
        processedAt := some 600, retryCount := 1, maxRetries := 3,
        errorMessage := some "tmp" } :=
  (recovery_frame 300 1000
      { id := "e2", aggregateType := "user", aggregateID := "u2",
        eventType := "user.updated", eventData := [1, 2], status := OutboxStatus.sent,
        topic := "user-events", partitionKey := none, createdAt := 0,
        processedAt := some 600, retryCount := 1, maxRetries := 3,
        errorMessage := some "tmp" }).2 (by decide)

/-- Relay.processEvent (internal/relay/relay.go), acting on one event, with
the Kafka publish outcome abstracted to `publishOk`: pre-claim check of
retry_count against max_retries (marking FAILED with the fixed error text),
then the conditional claim NEW → PROCESSING; on a successful claim, publish
and mark SENT on success or FAILED (with the publish error) on failure; a
lost claim leaves the row as the claim left it (unchanged). -/
def Relay.processEvent (publishOk : Bool) (errMsg : String) (t : Int)
    (event : OutboxEvent) : OutboxEvent :=
  if event.maxRetries ≤ event.retryCount then
    MarkEventAsFailed "exceeded maximum retry attempts" t event
  else
    let claim := MarkEventAsProcessing t event
    if claim.2 then
      if publishOk then MarkEventAsSent t claim.1
      else MarkEventAsFailed errMsg t claim.1
    else claim.1

/-- One relay tick as seen by a single row: Relay.processOutboxEvents
selects rows through Repository.GetPendingOutboxEvents, whose query is
`WHERE status = NEW`; a row in any other status is not selected and is left
untouched. -/
def Relay.tickOnRow (publishOk : Bool) (errMsg : String) (t : Int)
    (r : OutboxEvent) : OutboxEvent :=
  if r.status = OutboxStatus.new then Relay.processEvent publishOk errMsg t r else r

/-- The fresh outbox row of the C2 scenario: status NEW, retry_count 0,
max_retries 3, as the outbox writer inserts it. -/
def freshUserRow : OutboxEvent :=
  { id := "e1", aggregateType := "user", aggregateID := "u1",
    eventType := "user.created", eventData := [], status := OutboxStatus.new,
    topic := "user-events", partitionKey := some "u1", createdAt := 0,
    processedAt := none, retryCount := 0, maxRetries := 3, errorMessage := none }

/-- Claim C2 is contradicted by the code: with a publisher that always
fails, the first tick moves the fresh row to FAILED with retry_count 1 and
the publish error; because the poll query selects only status = NEW, every
subsequent tick leaves the FAILED row untouched (no further publish
attempt), and the recovery pass (which resets only PROCESSING rows) leaves
it untouched as well — the row is never re-attempted, its retry count never
reaches max_retries = 3, and the "exceeded maximum retry attempts" branch is
never taken for it. -/
theorem relay_strands_failed_row :
    (Relay.tickOnRow false "kafka down" 10 freshUserRow).status = OutboxStatus.failed ∧
      (Relay.tickOnRow false "kafka down" 10 freshUserRow).retryCount = 1 ∧
      (Relay.tickOnRow false "kafka down" 10 freshUserRow).errorMessage = some "kafka down" ∧
      Relay.tickOnRow false "kafka down" 20 (Relay.tickOnRow false "kafka down" 10 freshUserRow) =
        Relay.tickOnRow false "kafka down" 10 freshUserRow ∧
      resetStaleRow 300 100000 (Relay.tickOnRow false "kafka down" 10 freshUserRow) =
        Relay.tickOnRow false "kafka down" 10 freshUserRow ∧
      Relay.tickOnRow false "kafka down" 100001
          (resetStaleRow 300 100000 (Relay.tickOnRow false "kafka down" 10 freshUserRow)) =
        Relay.tickOnRow false "kafka down" 10 freshUserRow := by
  refine ⟨rfl, rfl, rfl, rfl, ?_, ?_⟩ <;> decide

/-! Operation-level transitions for C3: the four row-level operations the
relay and recovery code paths execute against a row, each a separate
transaction in the Go code. A relay worker holding a claim it believes is
still valid issues MarkEventAsSent / MarkEventAsFailed without any status
guard, so these can land after recovery has revived the row and another
worker has re-claimed it. -/

/-- One row-level operation issued by a relay worker or the recovery pass. -/
inductive RelayOp where
  | claim (t : Int)
  | markSent (t : Int)
  | markFailed (msg : String) (t : Int)
  | recover (timeout t : Int)
  deriving Repr, DecidableEq

/-- Whether the operation is one of the unguarded mark updates. -/
def RelayOp.isMark : RelayOp → Bool
  | .markSent _ => true
  | .markFailed _ _ => true
  | _ => false

/-- Effect of one operation on a row, per the repository code. -/
def applyRelayOp : RelayOp → OutboxEvent → OutboxEvent
  | .claim t, r => (MarkEventAsProcessing t r).1
  | .markSent t, r => MarkEventAsSent t r
  | .markFailed msg t, r => MarkEventAsFailed msg t r
  | .recover timeout t, r => resetStaleRow timeout t r

/-- A sequence of operations applied in order. -/
def runRelayOps (ops : List RelayOp) (r : OutboxEvent) : OutboxEvent :=
  ops.foldl (fun s op => applyRelayOp op s) r

/-- The status edges claim C3 allows: NEW → PROCESSING → {SENT, FAILED} and
the recovery edge PROCESSING → NEW. -/
def edgeAllowed : OutboxStatus → OutboxStatus → Bool
  | .new, .processing => true
  | .processing, .sent => true
  | .processing, .failed => true
  | .processing, .new => true
  | _, _ => false

/-- Counterexample to claim C3: a realizable sequence of relay and recovery
operations changes a SENT row's status. Worker A claims the fresh row at
t = 10 and stalls in its publish call; the recovery pass at t = 100 (timeout
5) revives the row; worker B claims it at t = 101, publishes, and marks it
SENT at t = 102; worker A's publish then fails and its unguarded
MarkEventAsFailed at t = 103 flips the SENT row to FAILED — a SENT → FAILED
transition outside the claimed edge set. -/
theorem sent_row_overwritten :
    (runRelayOps [RelayOp.claim 10, RelayOp.recover 5 100, RelayOp.claim 101,
        RelayOp.markSent 102] freshUserRow).status = OutboxStatus.sent ∧
      (runRelayOps [RelayOp.claim 10, RelayOp.recover 5 100, RelayOp.claim 101,
          RelayOp.markSent 102, RelayOp.markFailed "publish timeout" 103]
        freshUserRow).status = OutboxStatus.failed := by
  constructor <;> decide

/-- A trace is single-claimant: every unguarded mark lands while the row it
is applied to is still PROCESSING (the issuing worker's claim was never
revived and re-claimed under it). -/
inductive GuardedTrace : OutboxEvent → List RelayOp → Prop where
  | nil (r : OutboxEvent) : GuardedTrace r []
  | cons (op : RelayOp) (r : OutboxEvent) (ops : List RelayOp)
      (hguard : op.isMark = true → r.status = OutboxStatus.processing)
      (hrest : GuardedTrace (applyRelayOp op r) ops) : GuardedTrace r (op :: ops)

/-- Any non-mark operation leaves a SENT row completely unchanged. -/
theorem applyRelayOp_sent_fixed (op : RelayOp) (r : OutboxEvent)
    (hs : r.status = OutboxStatus.sent) (hm : op.isMark = false) :
    applyRelayOp op r = r := by
  cases op with
  | claim t =>
    simp [applyRelayOp, MarkEventAsProcessing, hs]
  | markSent t => cases hm
  | markFailed msg t => cases hm
  | recover timeout t =>
    have hstale : staleProcessing timeout t r = false := by
      simp [staleProcessing, hs]
    simp [applyRelayOp, resetStaleRow, hstale]

/-- Claim C3 as amended: each single operation, when any unguarded mark is
issued only against a row still in PROCESSING, either leaves the status
unchanged or moves it along an allowed edge (NEW → PROCESSING,
PROCESSING → {SENT, FAILED}, recovery PROCESSING → NEW); and along any
single-claimant trace a SENT row stays SENT forever. Without the
single-claimant condition the marks are unguarded and `sent_row_overwritten`
shows a SENT row flipping to FAILED. -/
theorem outbox_status_edges (r : OutboxEvent) (op : RelayOp) (ops : List RelayOp) :
    ((op.isMark = true → r.status = OutboxStatus.processing) →
        ((applyRelayOp op r).status = r.status ∨
          edgeAllowed r.status (applyRelayOp op r).status = true)) ∧
      (GuardedTrace r ops → r.status = OutboxStatus.sent →
        (runRelayOps ops r).status = OutboxStatus.sent) := by
  constructor
  · intro hguard
    cases op with
    | claim t =>
      by_cases hs : r.status = OutboxStatus.new
      · right
        simp [applyRelayOp, MarkEventAsProcessing, hs, edgeAllowed]
      · left
        simp [applyRelayOp, MarkEventAsProcessing, hs]
    | markSent t =>
      right
      have hs := hguard rfl
      simp [applyRelayOp, MarkEventAsSent, hs, edgeAllowed]
    | markFailed msg t =>
      right
      have hs := hguard rfl
      simp [applyRelayOp, MarkEventAsFailed, hs, edgeAllowed]
    | recover timeout t =>
      by_cases hstale : staleProcessing timeout t r = true
      · right
        have hs : r.status = OutboxStatus.processing := by
          by_contra hne
          simp [staleProcessing, hne] at hstale
        simp [applyRelayOp, resetStaleRow, hstale, hs, edgeAllowed]
      · left
        simp [applyRelayOp, resetStaleRow, hstale]
  · intro htrace
    induction htrace with
    | nil r => intro hs; exact hs
    | cons op r ops hguard hrest ih =>
      intro hs
      have hm : op.isMark = false := by
        by_contra hmm
        rw [Bool.not_eq_false] at hmm
        rw [hguard hmm] at hs
        cases hs
      have hfix := applyRelayOp_sent_fixed op r hs hm
      have : runRelayOps (op :: ops) r = runRelayOps ops (applyRelayOp op r) := rfl
      rw [this, hfix]
      rw [hfix] at ih
      exact ih hs

/-- Witness for the amended C3 at a concrete input: claiming a fresh NEW row
at t = 10 takes the allowed NEW → PROCESSING edge, and the empty trace keeps
a SENT row SENT. -/
theorem outbox_status_edges_witness :
    ((applyRelayOp (RelayOp.claim 10) freshUserRow).status = freshUserRow.status ∨
        edgeAllowed freshUserRow.status (applyRelayOp (RelayOp.claim 10) freshUserRow).status = true) ∧
      (runRelayOps [] (MarkEventAsSent 5 freshUserRow)).status = OutboxStatus.sent :=
  ⟨(outbox_status_edges freshUserRow (RelayOp.claim 10) []).1 (fun h => nomatch h),
    (outbox_status_edges (MarkEventAsSent 5 freshUserRow) (RelayOp.claim 10) []).2
      (GuardedTrace.nil _) rfl⟩

/-! ### Sliding window engine

The sorted set of one key is modelled as a list of millisecond timestamps
(the member of each entry equals its score in the script). -/

/-- Result of the sliding-window script: `{allowed, current_count,
retry_after}` (retry_after in ms, converted to seconds by the Go caller). -/
structure WindowResult where
  allowed : Bool
  currentCount : Int
  retryAfter : Int
  deriving Repr, DecidableEq

/-- `ZREMRANGEBYSCORE key -inf window_start`: drops every entry with score
≤ window_start, keeping exactly the entries with score > window_start. -/
def pruneWindow (windowStart : Int) (entries : List Int) : List Int :=
  entries.filter (fun s => windowStart < s)

/-- Embedding of `slidingWindowScript` (behind
`RedisSlidingWindow.IsAllowed`, called with window_start = now − window and
window_end = now in ms): prune, count, and if the count is below
max_requests insert the entry `window_end` (ZADD is a no-op on an existing
member but the returned count is still incremented); otherwise compute
retry_after from the oldest surviving entry, clamped at 0. -/
def slidingWindowScript (windowStart windowEnd maxRequests ttl : Int)
    (entries : List Int) : WindowResult × List Int :=
  let pruned := pruneWindow windowStart entries
  let currentCount : Int := pruned.length
  if currentCount < maxRequests then
    ({ allowed := true, currentCount := currentCount + 1, retryAfter := 0 },
     if windowEnd ∈ pruned then pruned else windowEnd :: pruned)
  else
    let retryAfter : Int :=
      match pruned.min? with
      | some oldest => max 0 (oldest + (windowEnd - windowStart) - windowEnd)
      | none => 0
    ({ allowed := false, currentCount := currentCount, retryAfter := retryAfter },
     pruned)

/-- Claim C8: the window operation executed at time `now` first drops every
entry with timestamp ≤ now − window, so an entry recorded by an allowed call
at time t is neither counted nor kept by any operation running at
now ≥ t + window: it is absent from the pruned set the count is taken over,
every surviving entry is strictly newer than now − window, and it is absent
from the set stored back. -/
theorem window_entry_expires (entries : List Int) (window now t maxRequests ttl : Int)
    (hw : 0 < window) (ht : t + window ≤ now) :
    t ∉ pruneWindow (now - window) entries ∧
      (∀ s ∈ (slidingWindowScript (now - window) now maxRequests ttl entries).2,
        now - window < s) ∧
      t ∉ (slidingWindowScript (now - window) now maxRequests ttl entries).2 := by
  have htold : t ≤ now - window := by linarith
  have hmem : t ∉ pruneWindow (now - window) entries := by
    intro hmem
    have := (List.mem_filter.mp hmem).2
    simp at this
    linarith
  have hkeep : ∀ s ∈ pruneWindow (now - window) entries, now - window < s := by
    intro s hs
    have := (List.mem_filter.mp hs).2
    simpa using this
  refine ⟨hmem, ?_, ?_⟩
  · intro s hsmem
    simp only [slidingWindowScript] at hsmem
    split at hsmem
    · split at hsmem
      · exact hkeep s hsmem
      · rcases List.mem_cons.mp hsmem with h | h
        · rw [h]; linarith
        · exact hkeep s h
    · exact hkeep s hsmem
  · intro hmem2
    simp only [slidingWindowScript] at hmem2
    split at hmem2
    · split at hmem2
      · exact hmem hmem2
      · rcases List.mem_cons.mp hmem2 with h | h
        · linarith
        · exact hmem h
    · exact hmem hmem2

/-- Witness for C8 at a concrete input: with a 100 ms window checked at
now = 100, the entry of an allowed call at t = 0 is dropped before counting,
all surviving entries are in-window, and the stored set no longer holds 0. -/
theorem window_entry_expires_witness :
    (0 : Int) ∉ pruneWindow (100 - 100) [0, 50] ∧
      (∀ s ∈ (slidingWindowScript (100 - 100) 100 10 300 [0, 50]).2, 100 - 100 < s) ∧
      (0 : Int) ∉ (slidingWindowScript (100 - 100) 100 10 300 [0, 50]).2 :=
  window_entry_expires [0, 50] 100 100 0 10 300 (by norm_num) (by norm_num)

/-! ### Kafka producer and partition strategies -/

/-- A produced Kafka message as sarama sees it: topic, optional key, value
bytes, and string headers. -/
structure ProducerMessage where
  topic : String
  key : Option String
  value : List Nat
  headers : List (String × String)
  deriving Repr, DecidableEq

/-- Embedding of Producer.PublishEvent (outbox-kafka internal/kafka
producer): value = the payload bytes, headers carrying event/aggregate
metadata, and the message key set only when the event's partition key is
present and non-empty — there is no fallback to the aggregate id for the
key. -/
def Producer.PublishEvent (event : OutboxEvent) : ProducerMessage :=
  let msg : ProducerMessage :=
    { topic := event.topic
      key := none
      value := event.eventData
      headers := [("event_type", event.eventType),
                  ("aggregate_type", event.aggregateType),
                  ("aggregate_id", event.aggregateID),
                  ("event_id", event.id),
                  ("created_at", toString event.createdAt)] }
  match event.partitionKey with
  | some k => if k ≠ "" then { msg with key := some k } else msg
  | none => msg

/-- A concrete outbox event carrying no partition key. -/
def keylessEvent : OutboxEvent :=
  { id := "e9", aggregateType := "user", aggregateID := "42",
    eventType := "user.created", eventData := [7], status := OutboxStatus.new,
    topic := "user-events", partitionKey := none, createdAt := 0,
    processedAt := none, retryCount := 0, maxRetries := 3, errorMessage := none }

/-- Counterexample to claim C4: for an event without a partition key the
produced message carries no key at all — it does not fall back to the
aggregate id ("42" here). -/
theorem publish_key_no_fallback :
    (Producer.PublishEvent keylessEvent).key = none ∧
      (Producer.PublishEvent keylessEvent).key ≠ some keylessEvent.aggregateID := by
  constructor <;> decide

/-- Claim C4 as amended: the produced message's key equals the event's
partition key when that is present and non-empty; otherwise the message is
produced without a key (the aggregate id travels only in the aggregate_id
header); topic and value always come from the event. -/
theorem publish_key_characterization (event : OutboxEvent) :
    (∀ k, event.partitionKey = some k → k ≠ "" →
        (Producer.PublishEvent event).key = some k) ∧
      (event.partitionKey = none ∨ event.partitionKey = some "" →
        (Producer.PublishEvent event).key = none) ∧
      ("aggregate_id", event.aggregateID) ∈ (Producer.PublishEvent event).headers ∧
      (Producer.PublishEvent event).topic = event.topic ∧
      (Producer.PublishEvent event).value = event.eventData := by
  refine ⟨?_, ?_, ?_, ?_, ?_⟩
  · intro k hk hne
    simp [Producer.PublishEvent, hk, hne]
  · rintro (hk | hk) <;> simp [Producer.PublishEvent, hk]
  · cases hk : event.partitionKey with
    | none => simp [Producer.PublishEvent, hk]
    | some k =>
      by_cases hne : k = ""
      · simp [Producer.PublishEvent, hk, hne]
      · simp [Producer.PublishEvent, hk, hne]
  · cases hk : event.partitionKey with
    | none => simp [Producer.PublishEvent, hk]
    | some k =>
      by_cases hne : k = ""
      · simp [Producer.PublishEvent, hk, hne]
      · simp [Producer.PublishEvent, hk, hne]
  · cases hk : event.partitionKey with
    | none => simp [Producer.PublishEvent, hk]
    | some k =>
      by_cases hne : k = ""
      · simp [Producer.PublishEvent, hk, hne]
      · simp [Producer.PublishEvent, hk, hne]

/-- Witness for the amended C4 at a concrete input: the fresh user row with
partition key "u1" is published with key "u1". -/
theorem publish_key_characterization_witness :
    (Producer.PublishEvent freshUserRow).key = some "u1" :=
  (publish_key_characterization freshUserRow).1 "u1" rfl (by decide)

/-- One step of the bitwise CRC-32 (IEEE, reflected polynomial 0xEDB88320),
operating on a 32-bit value held in a `Nat`. -/
def crc32Round (crc : Nat) : Nat :=
  if crc % 2 = 1 then (crc / 2) ^^^ 0xEDB88320 else crc / 2

/-- Folding one byte into the running CRC: xor into the low byte, then eight
polynomial-division rounds. -/
def crc32UpdateByte (crc b : Nat) : Nat :=
  crc32Round^[8] (crc ^^^ b)

/-- `crc32.ChecksumIEEE` over a byte sequence: initial value 0xFFFFFFFF,
fold every byte, final complement. The result is a 32-bit unsigned value. -/
def ChecksumIEEE (bytes : List Nat) : Nat :=
  (bytes.foldl crc32UpdateByte 0xFFFFFFFF) ^^^ 0xFFFFFFFF

/-- The bytes of a key string (UTF-8; code points below 128 are one byte, as
for all keys considered here). -/
def strBytes (s : String) : List Nat :=
  s.data.map Char.toNat

/-- Go's conversion `int32(h)` of a 32-bit unsigned value: two's-complement
reinterpretation. -/
def int32OfUInt32 (h : Nat) : Int :=
  if h < 2 ^ 31 then (h : Int) else (h : Int) - 2 ^ 32

/-- HashPartitionStrategy.GetPartition
(monolith/internal/kafka/partition.go): key = partition key when present and
non-empty, else the aggregate id; partition = `int32(crc32(key)) % n` with
Go's truncated remainder, after a guard returning 0 when n ≤ 0. -/
def HashPartitionStrategy.GetPartition (event : OutboxEvent) (numPartitions : Int) : Int :=
  if numPartitions ≤ 0 then 0
  else
    let key :=
      match event.partitionKey with
      | some k => if k ≠ "" then k else event.aggregateID
      | none => event.aggregateID
    Int.tmod (int32OfUInt32 (ChecksumIEEE (strBytes key))) numPartitions

/-- An outbox event whose aggregate id "a" has a CRC-32 with the high bit
set (0xE8B7BE43), so Go's `int32` conversion makes it negative. -/
def aggregateAEvent : OutboxEvent :=
  { id := "e10", aggregateType := "user", aggregateID := "a",
    eventType := "user.created", eventData := [], status := OutboxStatus.new,
    topic := "user-events", partitionKey := none, createdAt := 0,
    processedAt := none, retryCount := 0, maxRetries := 3, errorMessage := none }

/-- Claim C9 fails on the code: for the event keyed by aggregate id "a" and
numPartitions = 2, the hash strategy computes
`int32(0xE8B7BE43) % 2 = (-390611389) % 2 = -1` (Go's `%` keeps the
dividend's sign), a partition index outside [0, 2). -/
theorem hash_partition_negative :
    HashPartitionStrategy.GetPartition aggregateAEvent 2 = -1 ∧
      ChecksumIEEE (strBytes "a") = 0xE8B7BE43 := by
  constructor <;> decide

end CodingGym
